import Mathlib

/-!
# go_crochess_backend: move application, timeout resolution, connection map, game repository

A shallow embedding of

* `src/services/game/usecase/usecase.game.go` (`makeMove`, `handleTimer`,
  `intToMillisecondsDuration`, `UpdateOnMove`),
* `src/websocket/webSocketServer.go` (`registerClient`, `unregisterClient`),
* `services/game/repository/repository.game.go` (`Update`),

together with the theorems that settle the claims made about them.

Conventions of the embedding.

* Go `int`, `int64` and `time.Duration` values are integers reduced to the signed 64-bit
  range by `wrapInt64` after every arithmetic operation.
* A Go `error` is an `Error`; a returned `(value, nil)` is `.ok value` and a returned
  `(zero, err)` is `.error err`.
* `utils.Changes` (`map[string]interface{}`) is an association list with at most one pair per
  key; assignment `changes[k] = v` is `Changes.set`.
* The chess library (`github.com/notnil/chess`) is outside the repository: it is the
  parameter `Oracle`. The game store behind `domain.GameRepo` is the parameter `GameRepo`,
  with its state passed explicitly. The timer manager is outside the sources as well: calls
  to it are recorded, in order, in the trace of events a run produces.
* `timeNow` is read twice by `makeMove`; the two readings are the parameters `now₁`, `now₂`.
-/

namespace Crochess

/-! ## Go values -/

/-- Reduction of an integer to the signed 64-bit range (Go `int`/`int64` wrap-around). -/
def wrapInt64 (x : Int) : Int :=
  (x + 9223372036854775808) % 18446744073709551616 - 9223372036854775808

/-- Go `a + b` on `int`. -/
def goAdd (a b : Int) : Int := wrapInt64 (a + b)

/-- Go `a - b` on `int`. -/
def goSub (a b : Int) : Int := wrapInt64 (a - b)

/-- Go `a * b` on `int`. -/
def goMul (a b : Int) : Int := wrapInt64 (a * b)

/-- A Go `error` value, identified by its message. -/
structure Error where
  msg : String
deriving DecidableEq, Repr

/-- The dynamic values stored in a `utils.Changes` map. -/
inductive Value where
  | bool (b : Bool)
  | int (i : Int)
  | int64 (i : Int)
  | str (s : String)
deriving DecidableEq, Repr

/-- The type `utils.Changes`, i.e. `map[string]interface{}`. -/
abbrev Changes := List (String × Value)

/-- The assignment `changes[k] = v`. -/
def Changes.set (c : Changes) (k : String) (v : Value) : Changes :=
  (k, v) :: c.filter (fun p => p.1 != k)

/-- The lookup `changes[k]` with its presence flag. -/
def Changes.get (c : Changes) (k : String) : Option Value :=
  c.lookup k

/-- `strings.Split(s, " ")` on the characters still to read, `acc` holding the current
piece in reverse. -/
def splitAux : List Char → List Char → List String
  | acc, [] => [String.mk acc.reverse]
  | acc, c :: cs =>
    if c = ' ' then String.mk acc.reverse :: splitAux [] cs else splitAux (c :: acc) cs

/-- `strings.Split(s, " ")`: the pieces of `s` between single spaces; never empty. -/
def Split (s : String) : List String := splitAux [] s.toList

/-- `strings.TrimLeft(s, "\n")`. -/
def TrimLeft (s : String) : String := String.mk (s.toList.dropWhile (fun c => c = '\n'))

/-! ## The chess library, as far as the use case calls it -/

/-- `chess.Color`. -/
inductive Color where
  | NoColor
  | White
  | Black
deriving DecidableEq, Repr

/-- `chess.Color.Other`. -/
def Color.Other : Color → Color
  | .White => .Black
  | .Black => .White
  | .NoColor => .NoColor

/-- `chess.Outcome`. -/
inductive Outcome where
  | NoOutcome
  | WhiteWon
  | BlackWon
  | Draw
deriving DecidableEq, Repr

/-- `chess.Outcome.String`. -/
def Outcome.str : Outcome → String
  | .NoOutcome => "*"
  | .WhiteWon => "1-0"
  | .BlackWon => "0-1"
  | .Draw => "1/2-1/2"

/-- `chess.Method`. -/
inductive Method where
  | NoMethod
  | Checkmate
  | Resignation
  | DrawOffer
  | Stalemate
  | ThreefoldRepetition
  | FivefoldRepetition
  | FiftyMoveRule
  | SeventyFiveMoveRule
  | InsufficientMaterial
deriving DecidableEq, Repr

/-- `chess.Method.String`. -/
def Method.str : Method → String
  | .NoMethod => "NoMethod"
  | .Checkmate => "Checkmate"
  | .Resignation => "Resignation"
  | .DrawOffer => "DrawOffer"
  | .Stalemate => "Stalemate"
  | .ThreefoldRepetition => "ThreefoldRepetition"
  | .FivefoldRepetition => "FivefoldRepetition"
  | .FiftyMoveRule => "FiftyMoveRule"
  | .SeventyFiveMoveRule => "SeventyFiveMoveRule"
  | .InsufficientMaterial => "InsufficientMaterial"

/-- The rules library as `makeMove` uses it. `State` is the value of a `*chess.Game`
created with UCI notation; `MoveStr` is `gameState.MoveStr`, which either fails or
advances the game; `Turn` is `gameState.Position().Turn()`; `Rendered` is
`gameState.String()` after `ChangeNotation(chess.AlgebraicNotation{})`. -/
structure Oracle where
  State : Type
  NewGame : State
  MoveStr : State → String → Except Error State
  Turn : State → Color
  Outcome : State → Crochess.Outcome
  Method : State → Crochess.Method
  EligibleDraws : State → List Crochess.Method
  Rendered : State → String

/-! ## `domain.Game` and `domain.GameRepo` -/

/-- The struct `domain.Game`. -/
structure Game where
  ID : Int
  WhiteID : String
  BlackID : String
  Time : Int
  Increment : Int
  TimeStampAtTurnStart : Int
  WhiteTime : Int
  BlackTime : Int
  Moves : String
  Result : String
  Method : String
  Version : Int
  WhiteDrawStatus : Bool
  BlackDrawStatus : Bool
deriving DecidableEq, Repr

/-- The part of `domain.GameRepo` that the use case calls, over a store state `σ`:
`Get` answers a game or an error; `Update` answers `(updated, err)`. -/
structure GameRepo (σ : Type) where
  Get : σ → Int → Except Error Game × σ
  Update : σ → Int → Int → Changes → (Bool × Option Error) × σ

namespace usecase_game

/-! ## `usecase.game.go` -/

/-- The loop `for _, move := range moves { err := gameState.MoveStr(move); ... }` of
`makeMove`: the state reached, or the first error, and the strings handed to
`MoveStr` in order. -/
def replayMoves (O : Oracle) : O.State → List String → Except Error O.State × List String
  | gameState, [] => (.ok gameState, [])
  | gameState, move :: rest =>
    match O.MoveStr gameState move with
    | .error err => (.error err, [move])
    | .ok next =>
      let r := replayMoves O next rest
      (r.1, move :: r.2)

/-- The error `errors.New("Invalid player.")`. -/
def invalidPlayer : Error := ⟨"Invalid player."⟩

/-- The function `makeMove`. The first component is `.error err` for a return
`nil, chess.NoColor, err` and `.ok (changes, color)` for a return `changes, color, nil`;
the second component lists the strings handed to `gameState.MoveStr`, in call order.
The conversion `int(timeSpent)` is the identity, `int` being 64 bits wide, and
`len(g.Moves) > 0` holds exactly when `g.Moves` has a character. -/
def makeMove (O : Oracle) (now₁ now₂ : Int) (g : Game) (playerID move : String) :
    Except Error (Changes × Color) × List String :=
  let changes : Changes := []
  let moves := Split g.Moves
  match replayMoves O O.NewGame moves with
  | (.error err, calls) => (.error err, calls)
  | (.ok gameState, calls) =>
    let activeColor := O.Turn gameState
    if (activeColor = Color.White ∧ g.WhiteID ≠ playerID) ∨
        (activeColor = Color.Black ∧ g.BlackID ≠ playerID) then
      (.error invalidPlayer, calls)
    else
      match O.MoveStr gameState move with
      | .error err => (.error err, calls ++ [move])
      | .ok gameState =>
        let changes := changes.set "WhiteDrawStatus" (.bool false)
        let changes := changes.set "BlackDrawStatus" (.bool false)
        let outcome := O.Outcome gameState
        let changes :=
          if outcome ≠ Outcome.NoOutcome then
            let changes := changes.set "Result" (.str outcome.str)
            changes.set "Method" (.str (O.Method gameState).str)
          else if (O.EligibleDraws gameState).length > 1 then
            let changes := changes.set "WhiteDrawStatus" (.bool true)
            changes.set "BlackDrawStatus" (.bool true)
          else changes
        let timeSpent := goSub now₁ g.TimeStampAtTurnStart
        let activeTime := if activeColor = Color.White then g.WhiteTime else g.BlackTime
        let fieldOfActiveTime := if activeColor = Color.White then "WhiteTime" else "BlackTime"
        let base := goSub activeTime timeSpent
        let changes := changes.set fieldOfActiveTime (.int (goAdd base (goMul g.Increment 1000)))
        let changes := changes.set "TimeStampAtTurnStart" (.int64 now₂)
        let changes :=
          if g.Moves.length > 0 then changes.set "Moves" (.str (g.Moves ++ (" " ++ move)))
          else changes.set "Moves" (.str move)
        let changes := changes.set "History" (.str (TrimLeft (O.Rendered gameState)))
        (.ok (changes, activeColor.Other), calls ++ [move])

/-- The change set `makeMove` has built when it returns without error: `before` is the
state the stored history replays to, `after` the state once the candidate move is played. -/
def moveChanges (O : Oracle) (now₁ now₂ : Int) (g : Game) (move : String)
    (before after : O.State) : Changes :=
  let changes : Changes := []
  let changes := changes.set "WhiteDrawStatus" (.bool false)
  let changes := changes.set "BlackDrawStatus" (.bool false)
  let changes :=
    if O.Outcome after ≠ Outcome.NoOutcome then
      let changes := changes.set "Result" (.str (O.Outcome after).str)
      changes.set "Method" (.str (O.Method after).str)
    else if (O.EligibleDraws after).length > 1 then
      let changes := changes.set "WhiteDrawStatus" (.bool true)
      changes.set "BlackDrawStatus" (.bool true)
    else changes
  let changes :=
    changes.set (if O.Turn before = Color.White then "WhiteTime" else "BlackTime")
      (.int (goAdd
        (goSub (if O.Turn before = Color.White then g.WhiteTime else g.BlackTime)
          (goSub now₁ g.TimeStampAtTurnStart))
        (goMul g.Increment 1000)))
  let changes := changes.set "TimeStampAtTurnStart" (.int64 now₂)
  let changes :=
    if g.Moves.length > 0 then changes.set "Moves" (.str (g.Moves ++ (" " ++ move)))
    else changes.set "Moves" (.str move)
  changes.set "History" (.str (TrimLeft (O.Rendered after)))

/-- The variables captured by the closure that `handleTimer` hands to `StartTimer`. -/
structure TimeoutAction where
  gameID : Int
  version : Int
  activeColor : Color
deriving DecidableEq, Repr

/-- What a run does to its collaborators, in order: calls to the rules library, to the game
store, to the timer manager, and to the `onTimeOut` callback. -/
inductive Event where
  | MoveStr (move : String)
  | Get (id : Int)
  | Update (id : Int) (version : Int) (changes : Changes)
  | StartTimer (gameID : Int) (duration : Int) (action : TimeoutAction)
  | StopAndDeleteTimer (gameID : Int)
  | onTimeOut (changes : Changes)
deriving DecidableEq, Repr

/-- Whether an event is a call of `gameRepo.Update`. -/
def Event.isUpdate : Event → Bool
  | .Update _ _ _ => true
  | _ => false

/-- Whether an event is a call on the timer manager. -/
def Event.isTimerCall : Event → Bool
  | .StartTimer _ _ _ => true
  | .StopAndDeleteTimer _ => true
  | _ => false

/-- Whether an event is a call of the `onTimeOut` callback. -/
def Event.isOnTimeOut : Event → Bool
  | .onTimeOut _ => true
  | _ => false

/-- The method `handleTimer`: the timer-manager call it makes. -/
def handleTimer (gameID version duration : Int) (activeColor : Color) (gameOver : Bool) :
    List Event :=
  if gameOver then [Event.StopAndDeleteTimer gameID]
  else [Event.StartTimer gameID duration ⟨gameID, version, activeColor⟩]

/-- The change set built by the closure of `handleTimer`. -/
def timeoutChanges (activeColor : Color) : Changes :=
  let changes : Changes := []
  let changes := changes.set "Method" (.str "Time out")
  let changes := changes.set "WhiteDrawStatus" (.bool false)
  let changes := changes.set "BlackDrawStatus" (.bool false)
  if activeColor = Color.White then
    let changes := changes.set "WhiteTime" (.int 0)
    changes.set "Result" (.str Outcome.BlackWon.str)
  else
    let changes := changes.set "BlackTime" (.int 0)
    changes.set "Result" (.str Outcome.WhiteWon.str)

/-- The body of the closure that `handleTimer` hands to `StartTimer`, run against the
store in state `s`: the events it produces and the store afterwards. -/
def runTimeoutAction {σ : Type} (repo : GameRepo σ) (s : σ) (a : TimeoutAction) :
    List Event × σ :=
  let changes := timeoutChanges a.activeColor
  match repo.Update s a.gameID a.version changes with
  | ((updated, err), s₁) =>
    if updated ∧ err = none then
      ([Event.Update a.gameID a.version changes, Event.StopAndDeleteTimer a.gameID,
        Event.onTimeOut changes], s₁)
    else ([Event.Update a.gameID a.version changes], s₁)

/-- The function `intToMillisecondsDuration`; a `time.Duration` counts nanoseconds. -/
def intToMillisecondsDuration (value : Int) : Int := goMul value 1000000

/-- The error `errors.New("The move did not reach the server fast enough")`. -/
def staleUpdate : Error := ⟨"The move did not reach the server fast enough"⟩

/-- The outcome of a run of `UpdateOnMove`: the returned pair, the events in order, and the
state of the store afterwards. -/
structure Run (σ : Type) where
  result : Except Error Changes
  trace : List Event
  store : σ

/-- The method `UpdateOnMove`. -/
def UpdateOnMove {σ : Type} (O : Oracle) (repo : GameRepo σ) (now₁ now₂ : Int) (s : σ)
    (gameID : Int) (playerID move : String) : Run σ :=
  match repo.Get s gameID with
  | (.error err, s₁) => ⟨.error err, [Event.Get gameID], s₁⟩
  | (.ok g, s₁) =>
    match makeMove O now₁ now₂ g playerID move with
    | (.error err, calls) => ⟨.error err, Event.Get gameID :: calls.map Event.MoveStr, s₁⟩
    | (.ok (changes, activeColor), calls) =>
      let pre := Event.Get gameID :: calls.map Event.MoveStr
      match repo.Update s₁ gameID g.Version changes with
      | ((updated, err), s₂) =>
        let pre := pre ++ [Event.Update gameID g.Version changes]
        if !updated then ⟨.error staleUpdate, pre, s₂⟩
        else
          match err with
          | some e => ⟨.error e, pre, s₂⟩
          | none =>
            let timerDuration :=
              if activeColor = Color.White then intToMillisecondsDuration g.WhiteTime
              else intToMillisecondsDuration g.BlackTime
            let gameOver := (changes.get "Result").isSome
            ⟨.ok changes,
              pre ++ handleTimer gameID (goAdd g.Version 1) timerDuration activeColor gameOver,
              s₂⟩

end usecase_game

namespace domain_websocket

/-! ## `webSocketServer.go` -/

/-- A value of the interface `Client`: the identity `GetID` answers, and `conn`, which tells
apart two instances that answer the same identity. -/
structure Client where
  id : Int
  conn : Nat
deriving DecidableEq, Repr

/-- The method `Client.GetID`. -/
def Client.GetID (c : Client) : Int := c.id

/-- The field `Conns map[int]Client` of `WebSocketServer`. -/
structure WebSocketServer where
  Conns : Int → Option Client

/-- `NewWebSocketServer`: the connection map starts empty. -/
def NewWebSocketServer : WebSocketServer := ⟨fun _ => none⟩

/-- The method `registerClient`: `s.Conns[client.GetID()] = client`. -/
def registerClient (s : WebSocketServer) (client : Client) : WebSocketServer :=
  ⟨fun k => if k = client.GetID then some client else s.Conns k⟩

/-- The method `unregisterClient`:
`if _, ok := s.Conns[client.GetID()]; ok { delete(s.Conns, client.GetID()) }`. -/
def unregisterClient (s : WebSocketServer) (client : Client) : WebSocketServer :=
  if (s.Conns client.GetID).isSome then
    ⟨fun k => if k = client.GetID then none else s.Conns k⟩
  else s

end domain_websocket

namespace repository_game

/-! ## `repository.game.go` -/

/-- The verb `%v` of `fmt.Sprintf` on the values a change set holds. -/
def formatValue : Value → String
  | .bool b => if b then "true" else "false"
  | .int i => toString i
  | .int64 i => toString i
  | .str s => s

/-- The class `\s` of Go regular expressions. -/
def isSpace (c : Char) : Bool :=
  c = ' ' || c = '\t' || c = '\n' || c = '\r' || c = Char.ofNat 12

/-- The call `regexp.MustCompile("\s*,\s*$").ReplaceAllString(s, "")`: when `s` ends in a
comma surrounded by white space, that comma and the white space around it are removed. -/
def trimTrailingComma (s : String) : String :=
  match s.toList.reverse.dropWhile isSpace with
  | ',' :: rest => String.mk (rest.dropWhile isSpace).reverse
  | _ => s

/-- The loop over the fields of the game struct in `Update`: `fields` lists, in declaration
order, each field name with its `json` tag. -/
def updateStr (fields : List (String × String)) (changes : Changes) : String :=
  fields.foldl
    (fun acc field =>
      match changes.get field.1 with
      | some v => acc ++ (field.2 ++ " = " ++ formatValue v ++ ", ")
      | none => acc)
    ""

/-- The statement text `Update` builds with `fmt.Sprintf`. -/
def updateSql (schema : String) (assignments : String) (id : Int) : String :=
  "\n    UPDATE " ++ schema ++ ".gameseeks \n    SET " ++ assignments ++
    "\n    WHERE\n        id = " ++ toString id ++ "\n    "

/-- A call on the `*sql.DB`. -/
inductive DBCall where
  | Prepare (query : String)
  | Exec (query : String)
deriving DecidableEq, Repr

/-- The method `gameRepo.Update(id, updater)`. `got` is the answer of `c.Get(id)`, `updater`
acts on the fetched game and on the fresh change set, `prepare` and `exec` are the answers of
the database to `Prepare` and `Exec`. The result is the returned error and the calls made on
the database. -/
def Update (schema : String) (fields : List (String × String)) (got : Except Error Game)
    (updater : Game → Changes → Game × Changes) (prepare exec : String → Option Error) :
    Option Error × List DBCall :=
  match got with
  | .error err => (some err, [])
  | .ok g =>
    let changes : Changes := []
    let (g, changes) := updater g changes
    let assignments := trimTrailingComma (updateStr fields changes)
    let sql := updateSql schema assignments g.ID
    match prepare sql with
    | some err => (some err, [DBCall.Prepare sql])
    | none =>
      match exec sql with
      | some err => (some err, [DBCall.Prepare sql, DBCall.Exec sql])
      | none => (none, [DBCall.Prepare sql, DBCall.Exec sql])

/-- The fields of `domain.Game` in declaration order, each with its `json` tag (`Version`
carries a `db` tag only, so its `json` tag is empty). -/
def gameFields : List (String × String) :=
  [("ID", "id"), ("WhiteID", "white_id"), ("BlackID", "black_id"), ("Time", "time"),
   ("Increment", "increment"), ("TimeStampAtTurnStart", "time_stamp_at_turn_start"),
   ("WhiteTime", "white_time"), ("BlackTime", "black_time"), ("Moves", "moves"),
   ("Result", "result"), ("Method", "method"), ("Version", ""),
   ("WhiteDrawStatus", "white_draw_status"), ("BlackDrawStatus", "black_draw_status")]

end repository_game

namespace Examples

/-! ## Concrete collaborators for the examples -/

/-- The text `encodePGN` of the chess library gives for the moves `sans` (in algebraic
notation) of a game without tag pairs and without outcome. -/
def pgnMoves : Nat → List String → String
  | _, [] => ""
  | i, san :: rest =>
    (if i % 2 = 0 then toString (i / 2 + 1) ++ "." ++ san else " " ++ san ++ " ")
      ++ pgnMoves (i + 1) rest

/-- A rules library that knows one line of play: `line` lists its moves, each in UCI and in
algebraic notation. The state is the number of plies played; the next move of the line is
accepted and every other string is rejected; white is to move after an even number of plies;
no position of the line ends the game; `draws` gives the eligible draws after each ply. -/
def lineOracle (line : List (String × String)) (draws : Nat → List Method) : Oracle where
  State := Nat
  NewGame := 0
  MoveStr := fun n move =>
    match line.get? n with
    | some (uci, _) =>
      if uci = move then .ok (n + 1) else .error ⟨"chess: invalid move " ++ move⟩
    | none => .error ⟨"chess: invalid move " ++ move⟩
  Turn := fun n => if n % 2 = 0 then Color.White else Color.Black
  Outcome := fun _ => Outcome.NoOutcome
  Method := fun _ => Method.NoMethod
  EligibleDraws := draws
  Rendered := fun n => "\n" ++ pgnMoves 0 ((line.take n).map Prod.snd) ++ " *"

/-- The line 1.e4 e5 with no draw to claim. -/
def openGame : Oracle :=
  lineOracle [("e2e4", "e4"), ("e7e5", "e5")] (fun _ => [Method.DrawOffer])

/-- The knights going out and back twice, 1.Nf3 Nf6 2.Ng1 Ng8 3.Nf3 Nf6 4.Ng1 Ng8: after the
eighth ply the initial position has occurred three times, and a draw by threefold repetition
may be claimed besides a draw by agreement. -/
def knightShuffle : Oracle :=
  lineOracle
    [("g1f3", "Nf3"), ("g8f6", "Nf6"), ("f3g1", "Ng1"), ("f6g8", "Ng8"),
     ("g1f3", "Nf3"), ("g8f6", "Nf6"), ("f3g1", "Ng1"), ("f6g8", "Ng8")]
    (fun n => if n = 8 then [Method.DrawOffer, Method.ThreefoldRepetition]
              else [Method.DrawOffer])

/-- The effect of one pair of a change set on a stored game. -/
def applyChange (g : Game) : String × Value → Game
  | ("WhiteDrawStatus", .bool b) => { g with WhiteDrawStatus := b }
  | ("BlackDrawStatus", .bool b) => { g with BlackDrawStatus := b }
  | ("Result", .str s) => { g with Result := s }
  | ("Method", .str s) => { g with Method := s }
  | ("WhiteTime", .int i) => { g with WhiteTime := i }
  | ("BlackTime", .int i) => { g with BlackTime := i }
  | ("TimeStampAtTurnStart", .int64 i) => { g with TimeStampAtTurnStart := i }
  | ("Moves", .str s) => { g with Moves := s }
  | _ => g

/-- Modelled from the spec: the game store, which is not among the sources, as a list of
games with `get(id)` and the compare-and-swap `update(id, expectedVersion, changeSet)`:
the row with this `id` is rewritten, and its version raised by one, exactly when its version
is `expectedVersion`; `updated` tells whether that happened. -/
def memoryRepo : GameRepo (List Game) where
  Get := fun s id =>
    match s.find? (fun g => g.ID = id) with
    | some g => (.ok g, s)
    | none => (.error ⟨"sql: no rows in result set"⟩, s)
  Update := fun s id version changes =>
    if s.any (fun g => g.ID = id ∧ g.Version = version) then
      ((true, none),
        s.map (fun g =>
          if g.ID = id ∧ g.Version = version then
            { changes.foldl applyChange g with Version := g.Version + 1 }
          else g))
    else ((false, none), s)

/-- The store of `memoryRepo` with a rival writer: right after each `Get`, and before the
caller can write, a rival update of the row that was read goes through and raises its
version by one. -/
def racedRepo : GameRepo (List Game) where
  Get := fun s id =>
    ((memoryRepo.Get s id).1,
      s.map (fun g => if g.ID = id then { g with Version := g.Version + 1 } else g))
  Update := memoryRepo.Update

/-- A game store that holds one game and whose `Update` always fails with `err`, leaving the
row as it is; the state counts the `Update` calls. -/
def brokenRepo (g : Game) (err : Error) : GameRepo Nat where
  Get := fun n _ => (.ok g, n)
  Update := fun n _ _ _ => ((false, some err), n + 1)

/-- A game between `w` and `b` after 1.e4, white having lost on time since: black is to move
on the board, the result is set. -/
def flaggedGame : Game where
  ID := 7
  WhiteID := "w"
  BlackID := "b"
  Time := 300000
  Increment := 2
  TimeStampAtTurnStart := 1700000000000
  WhiteTime := 0
  BlackTime := 290000
  Moves := "e2e4"
  Result := "0-1"
  Method := "Time out"
  Version := 4
  WhiteDrawStatus := false
  BlackDrawStatus := false

/-- The game of `flaggedGame` while it is still going on. -/
def runningGame : Game :=
  { flaggedGame with WhiteTime := 295000, Result := "", Method := "", Version := 3 }

/-- A game after seven plies of the knight shuffle, black to move. -/
def shuffleGame : Game :=
  { runningGame with Moves := "g1f3 g8f6 f3g1 f6g8 g1f3 g8f6 f3g1", Version := 8 }

/-- A game between `w` and `b` as it is right after its creation: version 1, both clocks at
the base time, no move, no result. -/
def newGame : Game where
  ID := 8
  WhiteID := "w"
  BlackID := "b"
  Time := 300000
  Increment := 2
  TimeStampAtTurnStart := 1700000000000
  WhiteTime := 300000
  BlackTime := 300000
  Moves := ""
  Result := ""
  Method := ""
  Version := 1
  WhiteDrawStatus := false
  BlackDrawStatus := false

end Examples

end Crochess

namespace Crochess

/-! ## Shared lemmas -/

theorem wrapInt64_of_range (x : Int) (hlo : -9223372036854775808 ≤ x)
    (hhi : x < 9223372036854775808) : wrapInt64 x = x := by
  unfold wrapInt64
  omega

theorem Changes.get_set_self (c : Changes) (k : String) (v : Value) :
    (c.set k v).get k = some v := by
  simp [Changes.get, Changes.set, List.lookup]

theorem Changes.lookup_filter_ne (c : Changes) (k k' : String) (h : k' ≠ k) :
    List.lookup k' (c.filter (fun p => p.1 != k)) = List.lookup k' c := by
  induction c with
  | nil => rfl
  | cons p rest ih =>
    obtain ⟨a, b⟩ := p
    by_cases hak : a = k
    · subst hak
      have hne : (k' == a) = false := by simpa using h
      simp [List.filter, List.lookup, hne, ih]
    · have hne : (a != k) = true := by simpa using hak
      simp only [List.filter, hne, List.lookup]
      rw [ih]

theorem Changes.get_set_ne (c : Changes) (k k' : String) (v : Value) (h : k' ≠ k) :
    (c.set k v).get k' = c.get k' := by
  have hne : (k' == k) = false := by simpa using h
  simp only [Changes.get, Changes.set, List.lookup, hne]
  exact Changes.lookup_filter_ne c k k' h

namespace usecase_game

theorem replayMoves_calls (O : Oracle) (moves : List String) (st st' : O.State)
    (h : (replayMoves O st moves).1 = .ok st') : (replayMoves O st moves).2 = moves := by
  induction moves generalizing st with
  | nil => rfl
  | cons m rest ih =>
    unfold replayMoves at h ⊢
    cases hm : O.MoveStr st m with
    | error e => simp [hm] at h
    | ok next =>
      simp only [hm] at h ⊢
      rw [ih next h]

/-- The player check of `makeMove`, on the state the history replays to. -/
theorem makeMove_of_replay (O : Oracle) (now₁ now₂ : Int) (g : Game) (playerID move : String)
    (st : O.State) (hrep : (replayMoves O O.NewGame (Split g.Moves)).1 = .ok st) :
    makeMove O now₁ now₂ g playerID move =
      if (O.Turn st = Color.White ∧ g.WhiteID ≠ playerID) ∨
          (O.Turn st = Color.Black ∧ g.BlackID ≠ playerID) then
        (.error invalidPlayer, Split g.Moves)
      else
        match O.MoveStr st move with
        | .error err => (.error err, Split g.Moves ++ [move])
        | .ok st' =>
          (.ok (moveChanges O now₁ now₂ g move st st', (O.Turn st).Other),
            Split g.Moves ++ [move]) := by
  have hcalls := replayMoves_calls O (Split g.Moves) O.NewGame st hrep
  rcases hr : replayMoves O O.NewGame (Split g.Moves) with ⟨res, calls⟩
  rw [hr] at hrep hcalls
  simp only at hrep hcalls
  subst hrep hcalls
  unfold makeMove
  simp only [hr]
  split
  · rfl
  · cases hm : O.MoveStr st move with
    | error err => rfl
    | ok st' => rfl

theorem makeMove_of_replay_error (O : Oracle) (now₁ now₂ : Int) (g : Game)
    (playerID move : String) (err : Error)
    (hrep : (replayMoves O O.NewGame (Split g.Moves)).1 = .error err) :
    (makeMove O now₁ now₂ g playerID move).1 = .error err := by
  rcases hr : replayMoves O O.NewGame (Split g.Moves) with ⟨res, calls⟩
  rw [hr] at hrep
  simp only at hrep
  subst hrep
  unfold makeMove
  simp only [hr]

/-- What an accepted move tells: the history replays, the player is the side to move, the
rules library accepts the candidate, and the change set is `moveChanges`. -/
theorem makeMove_ok_inv (O : Oracle) (now₁ now₂ : Int) (g : Game) (playerID move : String)
    (ch : Changes) (side : Color)
    (hok : (makeMove O now₁ now₂ g playerID move).1 = .ok (ch, side)) :
    ∃ st st', (replayMoves O O.NewGame (Split g.Moves)).1 = .ok st ∧
      ¬ ((O.Turn st = Color.White ∧ g.WhiteID ≠ playerID) ∨
          (O.Turn st = Color.Black ∧ g.BlackID ≠ playerID)) ∧
      O.MoveStr st move = .ok st' ∧
      ch = moveChanges O now₁ now₂ g move st st' ∧ side = (O.Turn st).Other ∧
      (makeMove O now₁ now₂ g playerID move).2 = Split g.Moves ++ [move] := by
  cases hrep : (replayMoves O O.NewGame (Split g.Moves)).1 with
  | error err =>
    rw [makeMove_of_replay_error O now₁ now₂ g playerID move err hrep] at hok
    cases hok
  | ok st =>
    rw [makeMove_of_replay O now₁ now₂ g playerID move st hrep] at hok ⊢
    by_cases hp : (O.Turn st = Color.White ∧ g.WhiteID ≠ playerID) ∨
        (O.Turn st = Color.Black ∧ g.BlackID ≠ playerID)
    · rw [if_pos hp] at hok
      cases hok
    · rw [if_neg hp] at hok ⊢
      cases hm : O.MoveStr st move with
      | error err =>
        rw [hm] at hok
        cases hok
      | ok st' =>
        rw [hm] at hok
        simp only [Except.ok.injEq, Prod.mk.injEq] at hok
        exact ⟨st, st', rfl, hp, hm, hok.1.symm, hok.2.symm, rfl⟩

/-! ## C1: a concluded game -/

/-- C1, counterexample. The stored game 7 was lost by white on time after 1.e4 (`Result` is
"0-1"); black submits 1...e5. `UpdateOnMove` returns a change set and no error, calls
`gameRepo.Update(7, 4, changes)`, and the stored game is rewritten. -/
theorem UpdateOnMove_concluded_game_counterexample :
    Examples.flaggedGame.Result ≠ "" ∧
    ∃ ch,
      (UpdateOnMove Examples.openGame Examples.memoryRepo 1700000005000 1700000005001
        [Examples.flaggedGame] 7 "b" "e7e5").result = .ok ch ∧
      Event.Update 7 4 ch ∈
        (UpdateOnMove Examples.openGame Examples.memoryRepo 1700000005000 1700000005001
          [Examples.flaggedGame] 7 "b" "e7e5").trace ∧
      (UpdateOnMove Examples.openGame Examples.memoryRepo 1700000005000 1700000005001
        [Examples.flaggedGame] 7 "b" "e7e5").store =
        [{ Examples.flaggedGame with
            Moves := "e2e4 e7e5", BlackTime := 287000,
            TimeStampAtTurnStart := 1700000005001, Version := 5 }] := by
  refine ⟨by decide, _, rfl, by decide, by decide⟩

/-- C1, amended. For every stored game, whatever its `Result`, every player id and every move
string: when `makeMove` rejects the request (the history does not replay, the player is not
the side to move, or the rules library refuses the move), `UpdateOnMove` returns that error,
makes no call of `gameRepo.Update`, and leaves the store as `Get` left it. `makeMove` does
not read `Result`: it answers the same for the game with any other `Result`. -/
theorem UpdateOnMove_rejected_no_update {σ : Type} (O : Oracle) (repo : GameRepo σ)
    (now₁ now₂ : Int) (s s₁ : σ) (gameID : Int) (playerID move : String) (g : Game)
    (err : Error)
    (hget : repo.Get s gameID = (.ok g, s₁))
    (hrej : (makeMove O now₁ now₂ g playerID move).1 = .error err) :
    (UpdateOnMove O repo now₁ now₂ s gameID playerID move).result = .error err ∧
    (∀ e ∈ (UpdateOnMove O repo now₁ now₂ s gameID playerID move).trace,
      e.isUpdate = false) ∧
    (UpdateOnMove O repo now₁ now₂ s gameID playerID move).store = s₁ ∧
    ∀ result : String,
      makeMove O now₁ now₂ { g with Result := result } playerID move =
        makeMove O now₁ now₂ g playerID move := by
  have hind : ∀ result : String,
      makeMove O now₁ now₂ { g with Result := result } playerID move =
        makeMove O now₁ now₂ g playerID move := fun _ => rfl
  refine ⟨?_, ?_, ?_, hind⟩ <;> clear hind <;>
    rcases hm : makeMove O now₁ now₂ g playerID move with ⟨res, calls⟩ <;>
    rw [hm] at hrej <;> simp only at hrej <;> subst hrej
  · simp only [UpdateOnMove, hget, hm]
  · simp only [UpdateOnMove, hget, hm]
    intro e he
    simp only [List.mem_cons, List.mem_map] at he
    rcases he with rfl | ⟨m, _, rfl⟩ <;> rfl
  · simp only [UpdateOnMove, hget, hm]

/-- C1, amended, at an input: white, who is not to move, submits a move in the game white
has lost on time. -/
theorem UpdateOnMove_rejected_no_update_witness :
    (UpdateOnMove Examples.openGame Examples.memoryRepo 1700000005000 1700000005001
      [Examples.flaggedGame] 7 "w" "e7e5").result = .error invalidPlayer ∧
    (∀ e ∈ (UpdateOnMove Examples.openGame Examples.memoryRepo 1700000005000 1700000005001
        [Examples.flaggedGame] 7 "w" "e7e5").trace, e.isUpdate = false) ∧
    (UpdateOnMove Examples.openGame Examples.memoryRepo 1700000005000 1700000005001
      [Examples.flaggedGame] 7 "w" "e7e5").store = [Examples.flaggedGame] ∧
    ∀ result : String,
      makeMove Examples.openGame 1700000005000 1700000005001
          { Examples.flaggedGame with Result := result } "w" "e7e5" =
        makeMove Examples.openGame 1700000005000 1700000005001 Examples.flaggedGame
          "w" "e7e5" :=
  UpdateOnMove_rejected_no_update Examples.openGame Examples.memoryRepo 1700000005000
    1700000005001 [Examples.flaggedGame] [Examples.flaggedGame] 7 "w" "e7e5"
    Examples.flaggedGame invalidPlayer rfl rfl

/-! ## C2: the clock of the side that moved -/

theorem clock_arith (t now start inc : Int) :
    goAdd (goSub t (goSub now start)) (goMul inc 1000) =
      wrapInt64 (t - (now - start) + inc * 1000) := by
  unfold goAdd goSub goMul wrapInt64
  omega

theorem moveChanges_clock_white (O : Oracle) (now₁ now₂ : Int) (g : Game) (move : String)
    (st st' : O.State) (h : O.Turn st = Color.White) :
    (moveChanges O now₁ now₂ g move st st').get "WhiteTime" =
        some (.int (wrapInt64
          (g.WhiteTime - (now₁ - g.TimeStampAtTurnStart) + g.Increment * 1000))) ∧
      (moveChanges O now₁ now₂ g move st st').get "BlackTime" = none := by
  unfold moveChanges
  simp only [h, if_true]
  rw [clock_arith]
  by_cases h1 : O.Outcome st' ≠ Outcome.NoOutcome <;>
    by_cases h2 : (O.EligibleDraws st').length > 1 <;>
    by_cases h3 : g.Moves.length > 0 <;>
    simp [h1, h2, h3, Changes.get_set_ne, Changes.get_set_self] <;>
    simp [Changes.get]

theorem moveChanges_clock_black (O : Oracle) (now₁ now₂ : Int) (g : Game) (move : String)
    (st st' : O.State) (h : O.Turn st = Color.Black) :
    (moveChanges O now₁ now₂ g move st st').get "BlackTime" =
        some (.int (wrapInt64
          (g.BlackTime - (now₁ - g.TimeStampAtTurnStart) + g.Increment * 1000))) ∧
      (moveChanges O now₁ now₂ g move st st').get "WhiteTime" = none := by
  unfold moveChanges
  have hw : ¬ (Color.Black = Color.White) := by decide
  simp only [h, hw, if_false]
  rw [clock_arith]
  by_cases h1 : O.Outcome st' ≠ Outcome.NoOutcome <;>
    by_cases h2 : (O.EligibleDraws st').length > 1 <;>
    by_cases h3 : g.Moves.length > 0 <;>
    simp [h1, h2, h3, Changes.get_set_ne, Changes.get_set_self] <;>
    simp [Changes.get]

/-- C2, counterexample. Black answers 1.e4 with 1...e5 five seconds after the turn began,
with 290000 ms left and `Increment` 2: the change set gives black 287000 ms, not
290000 - 5000 + 2. -/
theorem makeMove_clock_counterexample :
    ∃ ch side,
      (makeMove Examples.openGame 1700000005000 1700000005001 Examples.runningGame
        "b" "e7e5").1 = .ok (ch, side) ∧
      ch.get "BlackTime" = some (.int 287000) ∧
      ch.get "BlackTime" ≠
        some (.int (Examples.runningGame.BlackTime -
          (1700000005000 - Examples.runningGame.TimeStampAtTurnStart) +
          Examples.runningGame.Increment)) := by
  refine ⟨_, _, rfl, by decide, by decide⟩

/-- C2, amended. For every game snapshot `g`, clock reading `now₁` and accepted move, the
change set returned by `makeMove` sets the remaining time of the side that just moved (the
side to move in the position the history replays to) to
(that side's previous remaining time) - (`now₁` - `g.TimeStampAtTurnStart`) +
`g.Increment` * 1000, as a Go `int`, and has no entry for the other side's remaining time. -/
theorem makeMove_clock (O : Oracle) (now₁ now₂ : Int) (g : Game) (playerID move : String)
    (st : O.State) (ch : Changes) (side : Color)
    (hrep : (replayMoves O O.NewGame (Split g.Moves)).1 = .ok st)
    (hok : (makeMove O now₁ now₂ g playerID move).1 = .ok (ch, side)) :
    (O.Turn st = Color.White →
      ch.get "WhiteTime" = some (.int (wrapInt64
          (g.WhiteTime - (now₁ - g.TimeStampAtTurnStart) + g.Increment * 1000))) ∧
        ch.get "BlackTime" = none) ∧
    (O.Turn st = Color.Black →
      ch.get "BlackTime" = some (.int (wrapInt64
          (g.BlackTime - (now₁ - g.TimeStampAtTurnStart) + g.Increment * 1000))) ∧
        ch.get "WhiteTime" = none) := by
  obtain ⟨st₀, st', hrep₀, -, -, hch, -, -⟩ :=
    makeMove_ok_inv O now₁ now₂ g playerID move ch side hok
  rw [hrep] at hrep₀
  cases hrep₀
  subst hch
  exact ⟨moveChanges_clock_white O now₁ now₂ g move st st',
    moveChanges_clock_black O now₁ now₂ g move st st'⟩

/-- C2, amended, at an input: black's 1...e5 in the running game leaves black
290000 - 5000 + 2 * 1000 ms and says nothing of white's time. -/
theorem makeMove_clock_witness :
    (moveChanges Examples.openGame 1700000005000 1700000005001 Examples.runningGame
        "e7e5" (1 : Nat) (2 : Nat)).get "BlackTime" =
      some (.int (wrapInt64 (290000 - (1700000005000 - 1700000000000) + 2 * 1000))) ∧
    (moveChanges Examples.openGame 1700000005000 1700000005001 Examples.runningGame
        "e7e5" (1 : Nat) (2 : Nat)).get "WhiteTime" = none :=
  (makeMove_clock Examples.openGame 1700000005000 1700000005001 Examples.runningGame
    "b" "e7e5" (1 : Nat)
    (moveChanges Examples.openGame 1700000005000 1700000005001 Examples.runningGame
      "e7e5" (1 : Nat) (2 : Nat))
    Color.White rfl rfl).2 rfl

/-! ## C3: the draw flags after a move -/

theorem moveChanges_draw_flags (O : Oracle) (now₁ now₂ : Int) (g : Game) (move : String)
    (st st' : O.State) :
    (moveChanges O now₁ now₂ g move st st').get "WhiteDrawStatus" =
        some (.bool (decide (O.Outcome st' = Outcome.NoOutcome ∧
          1 < (O.EligibleDraws st').length))) ∧
      (moveChanges O now₁ now₂ g move st st').get "BlackDrawStatus" =
        some (.bool (decide (O.Outcome st' = Outcome.NoOutcome ∧
          1 < (O.EligibleDraws st').length))) := by
  unfold moveChanges
  by_cases h0 : O.Turn st = Color.White <;>
    by_cases h1 : O.Outcome st' = Outcome.NoOutcome <;>
    by_cases h2 : 1 < (O.EligibleDraws st').length <;>
    by_cases h3 : g.Moves.length > 0 <;>
    simp [h0, h1, h2, h3, Changes.get_set_ne, Changes.get_set_self]

/-- C3, counterexample. After seven plies of knights going out and back, black plays the
eighth, 4...Ng8: the game is not over and a draw by threefold repetition may be claimed.
`makeMove` accepts the move and its change set has both draw flags true. -/
theorem makeMove_draw_flags_counterexample :
    ∃ ch side,
      (makeMove Examples.knightShuffle 1700000005000 1700000005001 Examples.shuffleGame
        "b" "f6g8").1 = .ok (ch, side) ∧
      ch.get "WhiteDrawStatus" = some (.bool true) ∧
      ch.get "BlackDrawStatus" = some (.bool true) := by
  refine ⟨_, _, rfl, by decide, by decide⟩

/-- C3, amended. For every game snapshot and every move that `makeMove` accepts, whatever
the flags were before the move: the change set has `WhiteDrawStatus` and `BlackDrawStatus`
both true when the rules library reports no outcome and more than one eligible draw for the
new position, and both false in every other case. -/
theorem makeMove_draw_flags (O : Oracle) (now₁ now₂ : Int) (g : Game)
    (playerID move : String) (st st' : O.State) (ch : Changes) (side : Color)
    (hrep : (replayMoves O O.NewGame (Split g.Moves)).1 = .ok st)
    (hmove : O.MoveStr st move = .ok st')
    (hok : (makeMove O now₁ now₂ g playerID move).1 = .ok (ch, side)) :
    ch.get "WhiteDrawStatus" =
        some (.bool (decide (O.Outcome st' = Outcome.NoOutcome ∧
          1 < (O.EligibleDraws st').length))) ∧
      ch.get "BlackDrawStatus" =
        some (.bool (decide (O.Outcome st' = Outcome.NoOutcome ∧
          1 < (O.EligibleDraws st').length))) := by
  obtain ⟨st₀, st₁, hrep₀, -, hmove₀, hch, -, -⟩ :=
    makeMove_ok_inv O now₁ now₂ g playerID move ch side hok
  rw [hrep] at hrep₀
  cases hrep₀
  rw [hmove] at hmove₀
  cases hmove₀
  subst hch
  exact moveChanges_draw_flags O now₁ now₂ g move st st'

/-- C3, amended, at an input: black's 1...e5 in the running game, with no draw to claim,
leaves both flags false. -/
theorem makeMove_draw_flags_witness :
    (moveChanges Examples.openGame 1700000005000 1700000005001 Examples.runningGame
        "e7e5" (1 : Nat) (2 : Nat)).get "WhiteDrawStatus" = some (.bool false) ∧
    (moveChanges Examples.openGame 1700000005000 1700000005001 Examples.runningGame
        "e7e5" (1 : Nat) (2 : Nat)).get "BlackDrawStatus" = some (.bool false) :=
  makeMove_draw_flags Examples.openGame 1700000005000 1700000005001 Examples.runningGame
    "b" "e7e5" (1 : Nat) (2 : Nat)
    (moveChanges Examples.openGame 1700000005000 1700000005001 Examples.runningGame
      "e7e5" (1 : Nat) (2 : Nat))
    Color.White rfl rfl rfl

/-! ## C4: the versioned update -/

theorem filter_isUpdate_map_MoveStr (calls : List String) :
    (calls.map Event.MoveStr).filter Event.isUpdate = [] := by
  induction calls with
  | nil => rfl
  | cons c rest ih =>
    rw [List.map_cons, List.filter_cons_of_neg (by simp [Event.isUpdate])]
    exact ih

theorem filter_isTimerCall_map_MoveStr (calls : List String) :
    (calls.map Event.MoveStr).filter Event.isTimerCall = [] := by
  induction calls with
  | nil => rfl
  | cons c rest ih =>
    rw [List.map_cons, List.filter_cons_of_neg (by simp [Event.isTimerCall])]
    exact ih

theorem filter_isUpdate_handleTimer (gameID version duration : Int) (activeColor : Color)
    (gameOver : Bool) :
    (handleTimer gameID version duration activeColor gameOver).filter Event.isUpdate = [] := by
  cases gameOver <;> rfl

/-- C4. When `Get` answers a game `g` and `makeMove` accepts the move with change set `ch`,
the one call of `gameRepo.Update` that `UpdateOnMove` makes is
`Update(gameID, g.Version, ch)`; and when the store answers it with `updated = false` and no
error, `UpdateOnMove` returns no change set and the stale-update error, and makes no call on
the timer manager. -/
theorem UpdateOnMove_versioned_update {σ : Type} (O : Oracle) (repo : GameRepo σ)
    (now₁ now₂ : Int) (s s₁ : σ) (gameID : Int) (playerID move : String) (g : Game)
    (ch : Changes) (side : Color)
    (hget : repo.Get s gameID = (.ok g, s₁))
    (hok : (makeMove O now₁ now₂ g playerID move).1 = .ok (ch, side)) :
    (UpdateOnMove O repo now₁ now₂ s gameID playerID move).trace.filter Event.isUpdate =
        [Event.Update gameID g.Version ch] ∧
    ((repo.Update s₁ gameID g.Version ch).1 = (false, none) →
      (UpdateOnMove O repo now₁ now₂ s gameID playerID move).result = .error staleUpdate ∧
      (UpdateOnMove O repo now₁ now₂ s gameID playerID move).trace.filter
          Event.isTimerCall = []) := by
  rcases hm : makeMove O now₁ now₂ g playerID move with ⟨res, calls⟩
  rw [hm] at hok
  simp only at hok
  subst hok
  rcases hu : repo.Update s₁ gameID g.Version ch with ⟨⟨updated, err⟩, s₂⟩
  constructor
  · simp only [UpdateOnMove, hget, hm, hu]
    cases updated <;> cases err <;>
      simp [List.filter, Event.isUpdate, filter_isUpdate_map_MoveStr,
        filter_isUpdate_handleTimer]
  · intro h
    simp only [Prod.mk.injEq] at h
    obtain ⟨rfl, rfl⟩ := h
    simp [UpdateOnMove, hget, hm, hu, List.filter, Event.isTimerCall,
      filter_isTimerCall_map_MoveStr]

/-- C4, at an input: black's 1...e5 in the running game, read at version 3, reaches the
store after a rival update has raised the row to version 4. -/
theorem UpdateOnMove_versioned_update_witness :
    (UpdateOnMove Examples.openGame Examples.racedRepo 1700000005000 1700000005001
        [Examples.runningGame] 7 "b" "e7e5").trace.filter Event.isUpdate =
      [Event.Update 7 3
        (moveChanges Examples.openGame 1700000005000 1700000005001 Examples.runningGame
          "e7e5" (1 : Nat) (2 : Nat))] ∧
    (UpdateOnMove Examples.openGame Examples.racedRepo 1700000005000 1700000005001
        [Examples.runningGame] 7 "b" "e7e5").result = .error staleUpdate ∧
    (UpdateOnMove Examples.openGame Examples.racedRepo 1700000005000 1700000005001
        [Examples.runningGame] 7 "b" "e7e5").trace.filter Event.isTimerCall = [] :=
  have h := UpdateOnMove_versioned_update Examples.openGame Examples.racedRepo
    1700000005000 1700000005001 [Examples.runningGame]
    [{ Examples.runningGame with Version := 4 }] 7 "b" "e7e5" Examples.runningGame
    (moveChanges Examples.openGame 1700000005000 1700000005001 Examples.runningGame
      "e7e5" (1 : Nat) (2 : Nat))
    Color.White rfl rfl
  ⟨h.1, h.2 rfl⟩

/-! ## C5: errors of the game store -/

/-- C5, the code at the failing input. Black's 1...e5 in the running game reaches a store
whose `Update` answers `updated = false` together with the error "driver: bad connection":
`UpdateOnMove` returns the stale-update error, not the error of the store. -/
theorem UpdateOnMove_store_error_masked :
    (∀ id version ch,
      ((Examples.brokenRepo Examples.runningGame ⟨"driver: bad connection"⟩).Update 0 id
        version ch).1 = (false, some ⟨"driver: bad connection"⟩)) ∧
    (UpdateOnMove Examples.openGame
      (Examples.brokenRepo Examples.runningGame ⟨"driver: bad connection"⟩)
      1700000005000 1700000005001 0 7 "b" "e7e5").result = .error staleUpdate ∧
    staleUpdate ≠ ⟨"driver: bad connection"⟩ := by
  refine ⟨fun _ _ _ => rfl, rfl, by decide⟩

/-! ## C6: a player who is not to move -/

/-- C6. When the stored history replays to a state `st` and `playerID` is not the recorded
identity of the side to move in `st`, `makeMove` returns the error "Invalid player." having
handed to the rules library the moves of the history and nothing else; and `UpdateOnMove`
returns that error after `Get` and the replay alone: no call of `gameRepo.Update`, no call
on the timer manager, the store as `Get` left it. -/
theorem UpdateOnMove_invalid_player {σ : Type} (O : Oracle) (repo : GameRepo σ)
    (now₁ now₂ : Int) (s s₁ : σ) (gameID : Int) (playerID move : String) (g : Game)
    (st : O.State)
    (hget : repo.Get s gameID = (.ok g, s₁))
    (hrep : (replayMoves O O.NewGame (Split g.Moves)).1 = .ok st)
    (hplayer : (O.Turn st = Color.White ∧ playerID ≠ g.WhiteID) ∨
      (O.Turn st = Color.Black ∧ playerID ≠ g.BlackID)) :
    makeMove O now₁ now₂ g playerID move = (.error invalidPlayer, Split g.Moves) ∧
    (UpdateOnMove O repo now₁ now₂ s gameID playerID move).result = .error invalidPlayer ∧
    (UpdateOnMove O repo now₁ now₂ s gameID playerID move).trace =
      Event.Get gameID :: (Split g.Moves).map Event.MoveStr ∧
    (UpdateOnMove O repo now₁ now₂ s gameID playerID move).trace.filter
      Event.isUpdate = [] ∧
    (UpdateOnMove O repo now₁ now₂ s gameID playerID move).trace.filter
      Event.isTimerCall = [] ∧
    (UpdateOnMove O repo now₁ now₂ s gameID playerID move).store = s₁ := by
  have hp : (O.Turn st = Color.White ∧ g.WhiteID ≠ playerID) ∨
      (O.Turn st = Color.Black ∧ g.BlackID ≠ playerID) := by
    rcases hplayer with ⟨h, hne⟩ | ⟨h, hne⟩
    · exact Or.inl ⟨h, fun e => hne e.symm⟩
    · exact Or.inr ⟨h, fun e => hne e.symm⟩
  have hm : makeMove O now₁ now₂ g playerID move = (.error invalidPlayer, Split g.Moves) := by
    rw [makeMove_of_replay O now₁ now₂ g playerID move st hrep, if_pos hp]
  refine ⟨hm, ?_, ?_, ?_, ?_, ?_⟩
  · simp only [UpdateOnMove, hget, hm]
  · simp only [UpdateOnMove, hget, hm]
  · simp [UpdateOnMove, hget, hm, List.filter, Event.isUpdate, filter_isUpdate_map_MoveStr]
  · simp [UpdateOnMove, hget, hm, List.filter, Event.isTimerCall,
      filter_isTimerCall_map_MoveStr]
  · simp only [UpdateOnMove, hget, hm]

/-- C6, at an input: white submits a move in the running game, where black is to move
after 1.e4; the rules library has seen "e2e4" only. -/
theorem UpdateOnMove_invalid_player_witness :
    makeMove Examples.openGame 1700000005000 1700000005001 Examples.runningGame "w" "e7e5" =
      (.error invalidPlayer, ["e2e4"]) ∧
    (UpdateOnMove Examples.openGame Examples.memoryRepo 1700000005000 1700000005001
      [Examples.runningGame] 7 "w" "e7e5").result = .error invalidPlayer ∧
    (UpdateOnMove Examples.openGame Examples.memoryRepo 1700000005000 1700000005001
      [Examples.runningGame] 7 "w" "e7e5").trace = [Event.Get 7, Event.MoveStr "e2e4"] ∧
    (UpdateOnMove Examples.openGame Examples.memoryRepo 1700000005000 1700000005001
      [Examples.runningGame] 7 "w" "e7e5").trace.filter Event.isUpdate = [] ∧
    (UpdateOnMove Examples.openGame Examples.memoryRepo 1700000005000 1700000005001
      [Examples.runningGame] 7 "w" "e7e5").trace.filter Event.isTimerCall = [] ∧
    (UpdateOnMove Examples.openGame Examples.memoryRepo 1700000005000 1700000005001
      [Examples.runningGame] 7 "w" "e7e5").store = [Examples.runningGame] :=
  UpdateOnMove_invalid_player Examples.openGame Examples.memoryRepo 1700000005000
    1700000005001 [Examples.runningGame] [Examples.runningGame] 7 "w" "e7e5"
    Examples.runningGame (1 : Nat) rfl rfl (Or.inr ⟨rfl, by decide⟩)

/-! ## C7: the timer after a successful update -/

theorem goAdd_of_range (a b : Int) (hlo : -9223372036854775808 ≤ a + b)
    (hhi : a + b < 9223372036854775808) : goAdd a b = a + b :=
  wrapInt64_of_range (a + b) hlo hhi

theorem intToMillisecondsDuration_of_range (value : Int) (hlo : -9223372036854 ≤ value)
    (hhi : value ≤ 9223372036854) : intToMillisecondsDuration value = value * 1000000 := by
  unfold intToMillisecondsDuration goMul
  exact wrapInt64_of_range (value * 1000000) (by omega) (by omega)

theorem runTimeoutAction_updates {σ : Type} (repo : GameRepo σ) (s : σ) (a : TimeoutAction) :
    (runTimeoutAction repo s a).1.filter Event.isUpdate =
      [Event.Update a.gameID a.version (timeoutChanges a.activeColor)] := by
  unfold runTimeoutAction
  dsimp only
  split <;> rfl

/-- C7. After a successful versioned update in `UpdateOnMove` (the store answers
`updated = true` and no error), with `side` the color `makeMove` returned, which is the
opponent of the side that was to move in the replayed position: if the change set has a
`Result`, the only call on the timer manager is `StopAndDeleteTimer(gameID)`; otherwise it
is one `StartTimer(gameID, d, action)`, where `d` is `intToMillisecondsDuration` of the
remaining time of `side` (which the change set leaves as it was read), and `action`
carries `gameID`, the version read plus 1 (as a Go `int`) and `side`: run against any store,
its one update is `Update(gameID, version + 1, changes)` with the time-out change set of
`side`. The duration `intToMillisecondsDuration v` is `v` milliseconds as a `time.Duration`:
`v * 1000000` nanoseconds reduced to 64 bits, which is `v * 1000000` itself for every `v`
between -9223372036854 and 9223372036854, the whole range in which that product fits. -/
theorem UpdateOnMove_timer {σ : Type} (O : Oracle) (repo : GameRepo σ)
    (now₁ now₂ : Int) (s s₁ : σ) (gameID : Int) (playerID move : String) (g : Game)
    (st : O.State) (ch : Changes) (side : Color)
    (hget : repo.Get s gameID = (.ok g, s₁))
    (hrep : (replayMoves O O.NewGame (Split g.Moves)).1 = .ok st)
    (hok : (makeMove O now₁ now₂ g playerID move).1 = .ok (ch, side))
    (hupd : (repo.Update s₁ gameID g.Version ch).1 = (true, none)) :
    side = (O.Turn st).Other ∧
    ((ch.get "Result").isSome = true →
      (UpdateOnMove O repo now₁ now₂ s gameID playerID move).trace.filter Event.isTimerCall =
        [Event.StopAndDeleteTimer gameID]) ∧
    (ch.get "Result" = none →
      (side = Color.White →
        ch.get "WhiteTime" = none ∧
        (UpdateOnMove O repo now₁ now₂ s gameID playerID move).trace.filter
            Event.isTimerCall =
          [Event.StartTimer gameID (intToMillisecondsDuration g.WhiteTime)
            ⟨gameID, goAdd g.Version 1, Color.White⟩]) ∧
      (side = Color.Black →
        ch.get "BlackTime" = none ∧
        (UpdateOnMove O repo now₁ now₂ s gameID playerID move).trace.filter
            Event.isTimerCall =
          [Event.StartTimer gameID (intToMillisecondsDuration g.BlackTime)
            ⟨gameID, goAdd g.Version 1, Color.Black⟩])) ∧
    (∀ (τ : Type) (repo' : GameRepo τ) (s' : τ),
      (runTimeoutAction repo' s' ⟨gameID, goAdd g.Version 1, side⟩).1.filter Event.isUpdate =
        [Event.Update gameID (goAdd g.Version 1) (timeoutChanges side)]) ∧
    (-9223372036854775808 ≤ g.Version ∧ g.Version < 9223372036854775807 →
      goAdd g.Version 1 = g.Version + 1) ∧
    (∀ v : Int, intToMillisecondsDuration v = wrapInt64 (v * 1000000)) ∧
    (∀ v : Int, -9223372036854 ≤ v ∧ v ≤ 9223372036854 →
      intToMillisecondsDuration v = v * 1000000) := by
  obtain ⟨st₀, st', hrep₀, -, -, hch, hside, -⟩ :=
    makeMove_ok_inv O now₁ now₂ g playerID move ch side hok
  rw [hrep] at hrep₀
  cases hrep₀
  rcases hm : makeMove O now₁ now₂ g playerID move with ⟨res, calls⟩
  rw [hm] at hok
  simp only at hok
  subst hok
  rcases hu : repo.Update s₁ gameID g.Version ch with ⟨⟨updated, err⟩, s₂⟩
  rw [hu] at hupd
  simp only [Prod.mk.injEq] at hupd
  obtain ⟨rfl, rfl⟩ := hupd
  have htrace : ∀ d : Int, ∀ c : Color, ∀ over : Bool,
      (Event.Get gameID :: calls.map Event.MoveStr ++ [Event.Update gameID g.Version ch] ++
          handleTimer gameID (goAdd g.Version 1) d c over).filter Event.isTimerCall =
        handleTimer gameID (goAdd g.Version 1) d c over := by
    intro d c over
    have hh : (handleTimer gameID (goAdd g.Version 1) d c over).filter Event.isTimerCall =
        handleTimer gameID (goAdd g.Version 1) d c over := by
      cases over <;> rfl
    simp [List.filter, Event.isTimerCall, filter_isTimerCall_map_MoveStr, hh]
  refine ⟨hside, ?_, ?_, ?_, ?_, fun _ => rfl,
    fun v hv => intToMillisecondsDuration_of_range v hv.1 hv.2⟩
  · intro hres
    simp only [UpdateOnMove, hget, hm, hu, Bool.not_true, Bool.false_eq_true, if_false]
    rw [htrace, hres]
    rfl
  · intro hres
    constructor
    · intro hw
      have hturn : O.Turn st = Color.Black := by
        rw [hw] at hside
        cases ht : O.Turn st <;> rw [ht] at hside <;> first | rfl | cases hside
      refine ⟨?_, ?_⟩
      · rw [hch]
        exact (moveChanges_clock_black O now₁ now₂ g move st st' hturn).2
      · simp only [UpdateOnMove, hget, hm, hu, Bool.not_true, Bool.false_eq_true, if_false]
        rw [htrace, hres, hw]
        rfl
    · intro hb
      have hturn : O.Turn st = Color.White := by
        rw [hb] at hside
        cases ht : O.Turn st <;> rw [ht] at hside <;> first | rfl | cases hside
      refine ⟨?_, ?_⟩
      · rw [hch]
        exact (moveChanges_clock_white O now₁ now₂ g move st st' hturn).2
      · simp only [UpdateOnMove, hget, hm, hu, Bool.not_true, Bool.false_eq_true, if_false]
        rw [htrace, hres, hb]
        rfl
  · intro τ repo' s'
    exact runTimeoutAction_updates repo' s' ⟨gameID, goAdd g.Version 1, side⟩
  · intro hv
    exact goAdd_of_range g.Version 1 (by omega) (by omega)

/-- C7, at an input: black's 1...e5 in the running game, read at version 3, is stored; the
game goes on, and the one call on the timer manager starts the timer of game 7 for white's
295000 ms, which are 295000 * 1000000 ns, with an action for version 3 + 1 and white. -/
theorem UpdateOnMove_timer_witness :
    (moveChanges Examples.openGame 1700000005000 1700000005001 Examples.runningGame
        "e7e5" (1 : Nat) (2 : Nat)).get "WhiteTime" = none ∧
    (UpdateOnMove Examples.openGame Examples.memoryRepo 1700000005000 1700000005001
        [Examples.runningGame] 7 "b" "e7e5").trace.filter Event.isTimerCall =
      [Event.StartTimer 7 (intToMillisecondsDuration 295000)
        ⟨7, goAdd 3 1, Color.White⟩] ∧
    goAdd 3 1 = 3 + 1 ∧
    intToMillisecondsDuration 295000 = 295000 * 1000000 :=
  have h := UpdateOnMove_timer Examples.openGame Examples.memoryRepo 1700000005000
    1700000005001 [Examples.runningGame] [Examples.runningGame] 7 "b" "e7e5"
    Examples.runningGame (1 : Nat)
    (moveChanges Examples.openGame 1700000005000 1700000005001 Examples.runningGame
      "e7e5" (1 : Nat) (2 : Nat))
    Color.White rfl rfl rfl rfl
  ⟨((h.2.2.1 rfl).1 rfl).1, ((h.2.2.1 rfl).1 rfl).2, h.2.2.2.2.1 (by decide),
    h.2.2.2.2.2.2 295000 (by decide)⟩

/-! ## C8: the time-out action -/

theorem runTimeoutAction_callbacks {σ : Type} (repo : GameRepo σ) (s : σ)
    (a : TimeoutAction) :
    (runTimeoutAction repo s a).1.filter Event.isOnTimeOut =
      if (repo.Update s a.gameID a.version (timeoutChanges a.activeColor)).1 = (true, none)
      then [Event.onTimeOut (timeoutChanges a.activeColor)] else [] := by
  unfold runTimeoutAction
  dsimp only
  split
  · next h =>
    have h' : (repo.Update s a.gameID a.version (timeoutChanges a.activeColor)).1 =
        (true, none) := Prod.ext h.1 h.2
    rw [if_pos h']
    rfl
  · next h =>
    have h' : ¬ (repo.Update s a.gameID a.version (timeoutChanges a.activeColor)).1 =
        (true, none) := fun e => h ⟨congrArg Prod.fst e, congrArg Prod.snd e⟩
    rw [if_neg h']
    rfl

theorem runTimeoutAction_store {σ : Type} (repo : GameRepo σ) (s : σ) (a : TimeoutAction) :
    (runTimeoutAction repo s a).2 =
      (repo.Update s a.gameID a.version (timeoutChanges a.activeColor)).2 := by
  unfold runTimeoutAction
  dsimp only
  split <;> rfl

/-- C8. For every game id, expected version and expired side, `handleTimer` (the game not
being over) arms with `StartTimer` the action that carries these three. Its change set sets
the expired side's remaining time to 0, `Result` to the win of the other side ("0-1" when
white expired, "1-0" when black expired) and `Method` to "Time out", and has no entry for the
other side's remaining time. Run against a store, the action makes exactly one call
`gameRepo.Update(gameID, expectedVersion, changes)`, whose answer decides everything else:
`onTimeOut(changes)` is called, once, exactly when the answer is `updated = true` with no
error, and the store is left as that one call left it. -/
theorem handleTimer_timeout_action {σ : Type} (repo : GameRepo σ) (s : σ)
    (gameID version duration : Int) :
    (∀ side : Color,
      handleTimer gameID version duration side false =
        [Event.StartTimer gameID duration ⟨gameID, version, side⟩]) ∧
    ((timeoutChanges Color.White).get "WhiteTime" = some (.int 0) ∧
      (timeoutChanges Color.White).get "Result" = some (.str Outcome.BlackWon.str) ∧
      (timeoutChanges Color.White).get "Method" = some (.str "Time out") ∧
      (timeoutChanges Color.White).get "BlackTime" = none) ∧
    ((timeoutChanges Color.Black).get "BlackTime" = some (.int 0) ∧
      (timeoutChanges Color.Black).get "Result" = some (.str Outcome.WhiteWon.str) ∧
      (timeoutChanges Color.Black).get "Method" = some (.str "Time out") ∧
      (timeoutChanges Color.Black).get "WhiteTime" = none) ∧
    (∀ side : Color,
      (runTimeoutAction repo s ⟨gameID, version, side⟩).1.filter Event.isUpdate =
        [Event.Update gameID version (timeoutChanges side)] ∧
      (runTimeoutAction repo s ⟨gameID, version, side⟩).1.filter Event.isOnTimeOut =
        (if (repo.Update s gameID version (timeoutChanges side)).1 = (true, none)
          then [Event.onTimeOut (timeoutChanges side)] else []) ∧
      (runTimeoutAction repo s ⟨gameID, version, side⟩).2 =
        (repo.Update s gameID version (timeoutChanges side)).2) := by
  refine ⟨fun _ => rfl, by decide, by decide, fun side => ⟨?_, ?_, ?_⟩⟩
  · exact runTimeoutAction_updates repo s ⟨gameID, version, side⟩
  · exact runTimeoutAction_callbacks repo s ⟨gameID, version, side⟩
  · exact runTimeoutAction_store repo s ⟨gameID, version, side⟩

end usecase_game

namespace domain_websocket

/-! ## C9: the connection map -/

/-- C9, counterexample. A client registers under id 5, a second instance registers under the
same id and takes its place, then the first unregisters: the map holds nothing under 5. -/
theorem unregisterClient_counterexample :
    (⟨5, 0⟩ : Client) ≠ ⟨5, 1⟩ ∧
    (registerClient (registerClient NewWebSocketServer ⟨5, 0⟩) ⟨5, 1⟩).Conns 5 =
      some ⟨5, 1⟩ ∧
    (unregisterClient (registerClient (registerClient NewWebSocketServer ⟨5, 0⟩) ⟨5, 1⟩)
      ⟨5, 0⟩).Conns 5 = none := by
  refine ⟨by decide, by decide, by decide⟩

/-- C9, amended. For every connection map and every client `c`, `unregisterClient(c)` leaves
no entry under the id of `c`, whichever instance was registered there, and leaves the entry
under every other id as it was; `registerClient(c)` puts `c` under its id and leaves the
entry under every other id as it was. In particular, after `registerClient(old)`,
`registerClient(new)` with the same id, then `unregisterClient(old)`, the map holds nothing
under that id. -/
theorem unregisterClient_removes_any_instance (s : WebSocketServer) (c : Client) (k : Int)
    (n : Nat) :
    (unregisterClient s c).Conns k = (if k = c.GetID then none else s.Conns k) ∧
    (registerClient s c).Conns k = (if k = c.GetID then some c else s.Conns k) ∧
    (unregisterClient (registerClient (registerClient s c) ⟨c.GetID, n⟩) c).Conns c.GetID =
      none := by
  have hun : ∀ (t : WebSocketServer) (d : Client) (j : Int),
      (unregisterClient t d).Conns j = (if j = d.GetID then none else t.Conns j) := by
    intro t d j
    unfold unregisterClient
    cases h : t.Conns d.GetID with
    | none =>
      by_cases hj : j = d.GetID
      · simp [hj, h]
      · simp [hj]
    | some e => simp
  exact ⟨hun s c k, rfl, by rw [hun]; simp⟩

end domain_websocket

namespace repository_game

/-! ## C10: the statement of `gameRepo.Update` -/

/-- C10, the code at the failing input. Game 7 is stored, at whatever version `v`, and the
updater sets `WhiteTime` to 50000000. The one statement `Update` prepares and executes is
`UPDATE public.gameseeks SET white_time = 50000000 WHERE id = 7`: it assigns no version
and is restricted by the id alone. -/
theorem Update_statement_at_input (v : Int) :
    Update "public" gameFields (.ok { Examples.runningGame with Version := v })
        (fun g changes => (g, changes.set "WhiteTime" (.int 50000000)))
        (fun _ => none) (fun _ => none) =
      (none,
        [DBCall.Prepare
          "\n    UPDATE public.gameseeks \n    SET white_time = 50000000\n    WHERE\n        id = 7\n    ",
         DBCall.Exec
          "\n    UPDATE public.gameseeks \n    SET white_time = 50000000\n    WHERE\n        id = 7\n    "]) := by
  rfl

end repository_game

namespace usecase_game

/-! ## C11: the move list in the change set -/

/-- The replay of an empty history: `strings.Split("", " ")` has one piece, the empty string,
and `makeMove` hands it to the rules library before anything else; when the library refuses
it, `makeMove` returns that error, whoever the player and whatever the move. -/
theorem makeMove_empty_history (O : Oracle) (now₁ now₂ : Int) (g : Game)
    (playerID move : String) (err : Error)
    (hmoves : g.Moves = "")
    (hrefuse : O.MoveStr O.NewGame "" = .error err) :
    makeMove O now₁ now₂ g playerID move = (.error err, [""]) := by
  have hsplit : Split g.Moves = [""] := by
    rw [hmoves]
    rfl
  unfold makeMove
  simp only [hsplit, replayMoves, hrefuse]

theorem moveChanges_moves (O : Oracle) (now₁ now₂ : Int) (g : Game) (move : String)
    (st st' : O.State) :
    (moveChanges O now₁ now₂ g move st st').get "Moves" =
      some (.str (if g.Moves.length > 0 then g.Moves ++ (" " ++ move) else move)) := by
  unfold moveChanges
  by_cases h3 : g.Moves.length > 0 <;>
    simp [h3, Changes.get_set_ne, Changes.get_set_self]

/-- The second half of C11: for a game with non-empty `Moves`, the change set of an accepted
move has `Moves` equal to the old `Moves`, one space, and the move. -/
theorem makeMove_moves_append (O : Oracle) (now₁ now₂ : Int) (g : Game)
    (playerID move : String) (ch : Changes) (side : Color)
    (hmoves : g.Moves ≠ "")
    (hok : (makeMove O now₁ now₂ g playerID move).1 = .ok (ch, side)) :
    ch.get "Moves" = some (.str (g.Moves ++ " " ++ move)) := by
  obtain ⟨st, st', -, -, -, hch, -, -⟩ :=
    makeMove_ok_inv O now₁ now₂ g playerID move ch side hok
  have hlen : g.Moves.length > 0 := by
    rcases hg : g.Moves with ⟨data⟩
    rw [hg] at hmoves
    cases data with
    | nil => exact absurd rfl hmoves
    | cons c cs => simp [String.length]
  rw [hch, moveChanges_moves, if_pos hlen, String.append_assoc]

/-- The second half of C11 at an input: black's 1...e5 in the running game, whose `Moves` is
"e2e4", gives `Moves` "e2e4 e7e5". -/
theorem makeMove_moves_append_example :
    (moveChanges Examples.openGame 1700000005000 1700000005001 Examples.runningGame
        "e7e5" (1 : Nat) (2 : Nat)).get "Moves" = some (.str "e2e4 e7e5") :=
  makeMove_moves_append Examples.openGame 1700000005000 1700000005001 Examples.runningGame
    "b" "e7e5"
    (moveChanges Examples.openGame 1700000005000 1700000005001 Examples.runningGame
      "e7e5" (1 : Nat) (2 : Nat))
    Color.White (by decide) rfl

/-- C11, the code at the failing input. In the newly created game (`Moves` is the empty
string) white, whose id is `WhiteID`, submits 1.e4, which the rules library accepts from the
initial position. The replay of the stored history hands the one piece of
`strings.Split("", " ")`, the empty string, to the rules library, which refuses it:
`makeMove` returns an error, having made that one call, and no change set. -/
theorem makeMove_new_game_rejected :
    Examples.newGame.Moves = "" ∧
    Examples.newGame.WhiteID = "w" ∧
    (∃ st, Examples.openGame.MoveStr Examples.openGame.NewGame "e2e4" = .ok st) ∧
    Split Examples.newGame.Moves = [""] ∧
    ∃ err,
      makeMove Examples.openGame 1700000005000 1700000005001 Examples.newGame "w" "e2e4" =
        (.error err, [""]) :=
  ⟨rfl, rfl, ⟨_, rfl⟩, rfl, _,
    makeMove_empty_history Examples.openGame 1700000005000 1700000005001 Examples.newGame
      "w" "e2e4" _ rfl rfl⟩

end usecase_game

end Crochess
